import Mathlib

/-!
Verification development for the AI_Lumiere server core: the request
validator, request sanitizer, upstream client with retry/backoff, fixed
window rate limiter and streaming relay, as implemented (with minor
variations) in the Cloudflare worker (`src/worker/worker.js`), the Vite
dev-server plugin and the standalone Node/Express server.

JavaScript values that the core inspects are modelled by the small
inductive `JsVal`; JS truthiness and strict string equality are modelled
explicitly.  Numeric request parameters (`temperature`, `max_tokens`)
are carried as `Option Rat`: `some q` is a field whose `Number(...)`
coercion is the (finite) number `q`, `none` is a field coercing to NaN
(absent / non-numeric).  String lengths use Lean `String.length`
(codepoints), which agrees with JS `.length` (UTF-16 code units) on the
ASCII strings the claims use.
-/

namespace Lumiere

/-- A JavaScript value as far as the server core inspects one:
strings, finite numbers, booleans, `null` and `undefined`. -/
inductive JsVal where
  | str (s : String)
  | num (q : Rat)
  | bool (b : Bool)
  | null
  | undef
  deriving DecidableEq, Repr

/-- JS truthiness for the modelled values: `""`, `0`, `false`, `null`
and `undefined` are falsy, everything else truthy. -/
def JsVal.truthy : JsVal → Bool
  | .str s => s ≠ ""
  | .num q => q ≠ 0
  | .bool b => b
  | .null => false
  | .undef => false

/-- Template-literal / `String(...)` rendering of a modelled value.
Faithful for strings (the only case the development evaluates); other
branches use the standard JS renderings, with `num` rendered through
`Rat` printing. -/
def JsVal.display : JsVal → String
  | .str s => s
  | .num q => toString q
  | .bool b => if b then "true" else "false"
  | .null => "null"
  | .undef => "undefined"

/-- A content part of a message body, as the JS object the server sees:
a `type` field, a `text` field (`undefined` when absent), and the value
of `part.image_url?.url` (`none` when `image_url` is absent or carries
no `url` property, `some v` when `image_url` is an object whose `url`
property is `v`). -/
structure RawPart where
  type : JsVal
  text : JsVal
  imageUrlUrl : Option JsVal
  deriving DecidableEq, Repr

/-- The `content` field of a message: a string, an array of parts, or
anything else. -/
inductive RawContent where
  | strC (s : String)
  | arrC (ps : List RawPart)
  | otherC (v : JsVal)
  deriving DecidableEq, Repr

/-- One element of `body.messages`. -/
structure RawMsg where
  role : JsVal
  content : RawContent
  deriving DecidableEq, Repr

/-- A parsed request body object.  `messages` is `none` when the field
is not an array (`Array.isArray` fails); `temperature` / `max_tokens`
carry the `Number(...)` coercion of the field (`none` = NaN). -/
structure Body where
  model : JsVal
  messages : Option (List RawMsg)
  temperature : Option Rat
  max_tokens : Option Rat
  deriving DecidableEq, Repr

/-- An inbound JSON body: a proper object, or a non-object value
(`null` after a parse failure, a bare number, ...). -/
inductive ReqBody where
  | obj (b : Body)
  | nonObj (v : JsVal)
  deriving DecidableEq, Repr

/-- The `ALLOWED_MODELS` allow-list — identical 6-item set in all three variants.
`Set.has` uses strict equality, so only these exact strings match. -/
def ALLOWED_MODELS : List String :=
  [ "openai/gpt-oss-120b"
  , "openai/gpt-oss-20b"
  , "meta-llama/llama-4-scout-17b-16e-instruct"
  , "moonshotai/kimi-k2-instruct-0905"
  , "qwen/qwen3-32b"
  , "llama-3.1-8b-instant" ]

def MAX_MSG_LEN : Nat := 32000
def MAX_MSGS : Nat := 100

/-- Models `ALLOWED_MODELS.has(body.model)`. -/
def allowedModel (v : JsVal) : Bool :=
  match v with
  | .str s => ALLOWED_MODELS.contains s
  | _ => false

/-- Models `['user','assistant','system'].includes(m.role)` (strict equality). -/
def roleOk (v : JsVal) : Bool :=
  v = .str "user" ∨ v = .str "assistant" ∨ v = .str "system"

/-- Models `typeof v === 'string'`. -/
def JsVal.isString : JsVal → Bool
  | .str _ => true
  | _ => false

/-- The string carried by a string value (only read under `isString`). -/
def JsVal.asString : JsVal → String
  | .str s => s
  | _ => ""

/-- The per-part check inside `validateBody` (worker.js lines 39–47 and
the dev plugin lines 32–40): a text part with string `text` is length
checked; an `image_url` part is accepted when `part.image_url?.url` is
truthy; everything else is an invalid content part. -/
def checkPart (p : RawPart) : Option String :=
  if p.type = .str "text" && p.text.isString then
    if p.text.asString.length > MAX_MSG_LEN then some "Message too long" else none
  else if p.type = .str "image_url" && (p.imageUrlUrl.map JsVal.truthy).getD false then
    none
  else
    some "Invalid content part"

/-- First error among a list of parts (the `for (const part of ...)`
loop returns on the first failing part). -/
def checkParts : List RawPart → Option String
  | [] => none
  | p :: ps =>
    match checkPart p with
    | some e => some e
    | none => checkParts ps

/-- The per-message checks of worker.js `validateBody` (role, then the
string / array / other trichotomy on `content`). -/
def checkMsg (m : RawMsg) : Option String :=
  if ¬ roleOk m.role then some "Invalid role"
  else
    match m.content with
    | .strC s => if s.length > MAX_MSG_LEN then some "Message too long" else none
    | .arrC ps => checkParts ps
    | .otherC _ => some "Content must be string or array"

/-- First error among the messages. -/
def checkMsgs : List RawMsg → Option String
  | [] => none
  | m :: ms =>
    match checkMsg m with
    | some e => some e
    | none => checkMsgs ms

/-- Function `validateBody` of worker.js (lines 29–53) and of the Vite dev
plugin (lines 22–46) — the two are textually identical. -/
def validateBody (rb : ReqBody) : Option String :=
  match rb with
  | .nonObj _ => some "Invalid body"
  | .obj b =>
    if ¬ b.model.truthy ∨ ¬ allowedModel b.model then some "Unknown model"
    else
      match b.messages with
      | none => some "No messages"
      | some ms =>
        if ms.length = 0 then some "No messages"
        else if ms.length > MAX_MSGS then some "Too many messages"
        else checkMsgs ms

/-- Per-message checks of the Express server's `validateChatBody`
(part_001 lines 119–138): same logic as the worker, but the role check
also requires `msg.role` truthy and some error strings differ. -/
def checkMsgNode (m : RawMsg) : Option String :=
  if ¬ m.role.truthy ∨ ¬ roleOk m.role then some "Invalid message role"
  else
    match m.content with
    | .strC s =>
      if s.length > MAX_MSG_LEN then
        some "Сообщение слишком длинное (макс. 32000 символов)"
      else none
    | .arrC ps => checkParts ps
    | .otherC _ => some "Content must be string or array"

def checkMsgsNode : List RawMsg → Option String
  | [] => none
  | m :: ms =>
    match checkMsgNode m with
    | some e => some e
    | none => checkMsgsNode ms

/-- Function `validateChatBody` of the Express server (part_001 lines 110–141).
Same rule order as the worker validator but with different error
strings for the model / messages / length failures. -/
def validateChatBody (rb : ReqBody) : Option String :=
  match rb with
  | .nonObj _ => some "Invalid request body"
  | .obj b =>
    if ¬ b.model.truthy ∨ ¬ allowedModel b.model then
      some ("Неизвестная модель: " ++ b.model.display)
    else
      match b.messages with
      | none => some "Messages array is required"
      | some ms =>
        if ms.length = 0 then some "Messages array is required"
        else if ms.length > MAX_MSGS then
          some "Максимум 100 сообщений в контексте"
        else checkMsgsNode ms

/-- Models `Number(v) || d`: the default replaces NaN and `0` (both falsy). -/
def numOr (v : Option Rat) (d : Rat) : Rat :=
  match v with
  | none => d
  | some q => if q = 0 then d else q

/-- Models `Math.min(Math.max(Number(body.temperature) || 0.7, 0), 2)`. -/
def clampTemp (t : Option Rat) : Rat :=
  min (max (numOr t (7/10)) 0) 2

/-- Models `Math.min(Number(body.max_tokens) || 4096, 16384)` — note there is
no lower clamp on `max_tokens`. -/
def clampMaxTokens (mt : Option Rat) : Rat :=
  min (numOr mt 4096) 16384

/-- The part map inside `sanitize` (worker.js lines 62–65): an
`image_url`-typed part is rebuilt as `{type, image_url:{url}}` and any
other part as `{type:'text', text: p.text}`.  On a validated body the
`image_url` branch always finds `p.image_url` present; the JS code
would throw on an absent one, which the model renders as `undefined`
(that branch is never reached from validated input). -/
def sanitizePart (p : RawPart) : RawPart :=
  if p.type = .str "image_url" then
    { type := .str "image_url", text := .undef,
      imageUrlUrl := some (p.imageUrlUrl.getD .undef) }
  else
    { type := .str "text", text := p.text, imageUrlUrl := none }

/-- The message map inside `sanitize` (worker.js lines 58–69): array
content has every part rebuilt, any other content passes through. -/
def sanitizeMsg (m : RawMsg) : RawMsg :=
  match m.content with
  | .arrC ps => { role := m.role, content := .arrC (ps.map sanitizePart) }
  | c => { role := m.role, content := c }

/-- Function `sanitize` of worker.js (lines 55–73), identical to the dev
plugin's `sanitize` and the Express server's `sanitizeParams`
(part_001 lines 143–161).  `messages` keeps `none` where the JS code
would throw on non-array messages (never reached from validated
input). -/
def sanitize (b : Body) : Body :=
  { model := b.model
  , messages := b.messages.map (fun ms => ms.map sanitizeMsg)
  , temperature := some (clampTemp b.temperature)
  , max_tokens := some (clampMaxTokens b.max_tokens) }

/-! ## Rate limiter (dev plugin, part_000 lines 120–131)

`rateLimits` is a `Map<string, {count, reset}>`; the state is modelled
as an association list where an update shadows earlier entries (lookup
finds the newest binding, as `Map.get` finds the value of the last
`Map.set`). -/

structure RLEntry where
  count : Nat
  reset : Int
  deriving DecidableEq, Repr

/-- The `rateLimits` map. -/
def RLState := List (String × RLEntry)

/-- Models `rateLimits.get(ip)`. -/
def rlGet (m : RLState) (ip : String) : Option RLEntry :=
  match m with
  | [] => none
  | (k, e) :: rest => if k = ip then some e else rlGet rest ip

/-- Models `rateLimits.set(ip, e)` (newest binding shadows older ones). -/
def rlSet (m : RLState) (ip : String) (e : RLEntry) : RLState :=
  (ip, e) :: m

/-- Function `isLimited(ip, max, windowMs)` (part_000 lines 122–131), with the
ambient `Date.now()` passed in as `now` and the mutable map threaded
through.  The boolean result is the return value; the second component
is the map after the call.  Note the code increments `e.count` before
comparing, so an in-window call returns `e.count + 1 > max`. -/
def isLimited (ip : String) (max : Nat) (windowMs : Int) (now : Int)
    (m : RLState) : Bool × RLState :=
  match rlGet m ip with
  | none => (false, rlSet m ip ⟨1, now + windowMs⟩)
  | some e =>
    if now > e.reset then (false, rlSet m ip ⟨1, now + windowMs⟩)
    else (e.count + 1 > max, rlSet m ip ⟨e.count + 1, e.reset⟩)

/-- State of the map after `n` successive `isLimited` calls for the
same key at the same instant `now`, starting from `m`. -/
def isLimitedIter (ip : String) (max : Nat) (windowMs : Int) (now : Int)
    (m : RLState) : Nat → RLState
  | 0 => m
  | n + 1 => (isLimited ip max windowMs now (isLimitedIter ip max windowMs now m n)).2

/-! ## Upstream client with backoff

`groqFetch` is modelled as a function of the sequence of upstream
responses, indexed by attempt number (the backoff sleeps do not affect
the returned value).  A response carries the fields the retry loop
inspects plus an opaque body. -/

/-- An upstream HTTP response as the retry loop sees it: `res.ok`,
`res.status`, and the body (opaque to the loop). -/
structure UResp where
  ok : Bool
  status : Nat
  body : String
  deriving DecidableEq, Repr

/-- The worker's synthesized post-loop response
(`json({error:{message:'Rate limit exceeded'}}, 429)`, worker.js
line 94). -/
def workerSynth : UResp :=
  ⟨false, 429, "\x7b\"error\":\x7b\"message\":\"Rate limit exceeded\"\x7d\x7d"⟩

/-- The Express server's synthesized post-loop response (part_001
lines 191–194). -/
def nodeSynth : UResp :=
  ⟨false, 429, "\x7b\"error\":\x7b\"message\":\"Rate limit exceeded after max retries\"\x7d\x7d"⟩

/-- The loop of worker.js `groqFetch` (lines 75–95): for attempt `i`
with `left` loop iterations remaining (`left = maxRetries + 1 - i`,
so the guard `i <= maxRetries` of the `for` loop is `left > 0`):
return on `res.ok`; on a 429 retry only while `i < maxRetries`;
return any other response as-is.  The post-loop synthesized response
is reached only if the loop exhausts, which this loop body never
lets happen. -/
def fetchLoopWorker (up : Nat → UResp) (maxRetries : Nat) : Nat → Nat → UResp
  | _, 0 => workerSynth
  | i, left + 1 =>
    let r := up i
    if r.ok then r
    else if r.status = 429 ∧ i < maxRetries then fetchLoopWorker up maxRetries (i + 1) left
    else r

/-- The worker.js `groqFetch` (default `maxRetries = 3`). -/
def groqFetchWorker (up : Nat → UResp) (maxRetries : Nat := 3) : UResp :=
  fetchLoopWorker up maxRetries 0 (maxRetries + 1)

/-- The loop of the Express server's `groqFetch` (part_001 lines
167–195; the dev plugin's, part_000 lines 70–91, is identical up to
the synthesized message), in the same fuelled form: return on
`res.ok`; on a 429 always sleep and retry; return any other response
as-is; when the loop exhausts `maxRetries + 1` attempts, return the
synthesized 429 envelope. -/
def fetchLoopNode (up : Nat → UResp) (maxRetries : Nat) : Nat → Nat → UResp
  | _, 0 => nodeSynth
  | i, left + 1 =>
    let r := up i
    if r.ok then r
    else if r.status = 429 then fetchLoopNode up maxRetries (i + 1) left
    else r

/-- The Express server's `groqFetch` (default `maxRetries = 5`). -/
def groqFetchNode (up : Nat → UResp) (maxRetries : Nat := 5) : UResp :=
  fetchLoopNode up maxRetries 0 (maxRetries + 1)

/-! ## Streaming relay

The `pump` loop (dev plugin part_000 lines 173–185, Express server
part_001 lines 238–250) reads the upstream body chunk by chunk and
writes each chunk, decoded by the streaming `TextDecoder`, to the
downstream response, then closes the response.

For the functional claim the upstream stream is the finite sequence of
chunks it will deliver and `dec` is the decoder
(`dec.decode(value, {stream:true})`). -/

/-- The `pump` loop: `res.write(dec.decode(value))` for each chunk
until `read()` reports done; returns the sequence of chunks written to
the downstream sink, in write order, appended to `written`. -/
def pump (dec : String → String) : List String → List String → List String
  | [], written => written
  | c :: rest, written => pump dec rest (written ++ [dec c])

/-! For the cancellation claim the relay is a labelled transition
system over the interleaving of the pump task and the downstream
`close` event (part_000 line 187 / part_001 line 252:
`req.on('close', () => reader.cancel().catch(() => {}))`).

Per the WHATWG Streams contract, after `reader.cancel()` the upstream
source is released and every pending or subsequent `reader.read()`
resolves `{done:true}` without requesting anything from upstream; a
`read()` resolving `done` is therefore not an upstream read.  Node
fires the request's `close` event at most once, and the registered
handler performs exactly one `reader.cancel()` call per firing. -/

/-- Relay events:
`pull` — a `reader.read()` resolves with an upstream chunk, which the
pump writes downstream; `readDone` — a `reader.read()` resolves
`{done:true}` (upstream exhausted or reader cancelled) and the pump
exits; `closeEv` — the downstream connection's `close` event fires and
its handler calls `reader.cancel()`. -/
inductive RelayEv where
  | pull
  | readDone
  | closeEv
  deriving DecidableEq, Repr

/-- Relay state: chunks upstream has yet to deliver, chunks written
downstream, whether `reader.cancel()` has been called, whether the
downstream `close` event has already fired, and whether the pump loop
has exited. -/
structure RelayState where
  upstream : List String
  written : List String
  cancelled : Bool
  closeFired : Bool
  pumpDone : Bool
  deriving DecidableEq, Repr

/-- The relay as started by the route handler, before the first read. -/
def relayInit (chunks : List String) : RelayState :=
  ⟨chunks, [], false, false, false⟩

/-- One step of the relay system; `none` when the event cannot occur
in the given state. -/
def relayStep (s : RelayState) : RelayEv → Option RelayState
  | .pull =>
    if s.pumpDone ∨ s.cancelled then none
    else
      match s.upstream with
      | [] => none
      | c :: rest => some { s with upstream := rest, written := s.written ++ [c] }
  | .readDone =>
    if s.pumpDone then none
    else if s.cancelled ∨ s.upstream = [] then some { s with pumpDone := true }
    else none
  | .closeEv =>
    if s.closeFired then none
    else some { s with closeFired := true, cancelled := true }

/-- Run a sequence of events from a state; `none` if any event is
impossible where it occurs. -/
def relayRun (s : RelayState) : List RelayEv → Option RelayState
  | [] => some s
  | e :: es =>
    match relayStep s e with
    | none => none
    | some s' => relayRun s' es

/-! ## Route dispatch (pre-upstream part of the chat routes)

What the chat routes do with a request body before any upstream
traffic: validate, and either answer 400 locally with the error
envelope or issue the upstream call with the sanitized payload
(worker.js lines 136–143, part_001 lines 199–207). -/

/-- Outcome of the pre-upstream phase of a chat route: a local JSON
response (status and serialized body), or an upstream call carrying
the sanitized payload. -/
inductive RouteOutcome where
  | respond (status : Nat) (jsonBody : String)
  | callUpstream (payload : Body)
  deriving DecidableEq, Repr

/-- Models `JSON.stringify({error:{message: msg}})` (exact for messages
without characters JSON would escape, which covers every message the
routes emit). -/
def errorEnvelope (msg : String) : String :=
  "\x7b\"error\":\x7b\"message\":\"" ++ msg ++ "\"\x7d\x7d"

/-- Route `POST /api/chat` in the worker (lines 136–143): validate with
`validateBody`, answer 400 on error, otherwise call upstream with
`sanitize(body)`. -/
def chatRouteWorker (rb : ReqBody) : RouteOutcome :=
  match validateBody rb with
  | some e => .respond 400 (errorEnvelope e)
  | none =>
    match rb with
    | .obj b => .callUpstream (sanitize b)
    | .nonObj _ => .respond 400 (errorEnvelope "Invalid body")

/-- Route `POST /api/chat` in the Express server (part_001 lines 199–207):
validate with `validateChatBody`, answer 400 on error, otherwise call
upstream with `sanitizeParams(body)`. -/
def chatRouteNode (rb : ReqBody) : RouteOutcome :=
  match validateChatBody rb with
  | some e => .respond 400 (errorEnvelope e)
  | none =>
    match rb with
    | .obj b => .callUpstream (sanitize b)
    | .nonObj _ => .respond 400 (errorEnvelope "Invalid request body")

/-! ## Auxiliary definitions used by the statements below -/

/-- A sequence of `isLimited` calls for one key at the given times;
returns the list of boolean results and the final map. -/
def rlCallSeq (ip : String) (max : Nat) (windowMs : Int) :
    List Int → RLState → List Bool × RLState
  | [], m => ([], m)
  | t :: ts, m =>
    let r := isLimited ip max windowMs t m
    let rest := rlCallSeq ip max windowMs ts r.2
    (r.1 :: rest.1, rest.2)

/-- Holds when `part.image_url?.url` is truthy — the condition the code actually
imposes on an `image_url` part. -/
def urlTruthy (p : RawPart) : Bool :=
  (p.imageUrlUrl.map JsVal.truthy).getD false

/-- The content-part shape as the specification words it: a text part
`{type:'text', text: string}` with `text.length ≤ 32000`, or an image
part `{type:'image_url', image_url:{url: string}}` whose `url` is a
string.  Stated from the spec, to be compared with `checkPart`. -/
def specPartShape (p : RawPart) : Bool :=
  (p.type = .str "text" && p.text.isString && p.text.asString.length ≤ MAX_MSG_LEN) ||
  (p.type = .str "image_url" &&
    (match p.imageUrlUrl with
     | some v => v.isString
     | none => false))

/-- A well-formed one-message request body used as the base of the
concrete test bodies below. -/
def baseBody : Body :=
  { model := .str "llama-3.1-8b-instant"
  , messages := some [⟨.str "user", .strC "hi"⟩]
  , temperature := none
  , max_tokens := none }

/-! ## Helper lemmas -/

theorem pump_eq_append (dec : String → String) (chunks w : List String) :
    pump dec chunks w = w ++ chunks.map dec := by
  induction chunks generalizing w with
  | nil => simp [pump]
  | cons c rest ih => simp [pump, ih]

theorem rlGet_rlSet (m : RLState) (ip : String) (e : RLEntry) :
    rlGet (rlSet m ip e) ip = some e := by
  simp [rlGet, rlSet]

/-! ## Claims -/

/-- C1: the streaming relay's `pump` forwards to the downstream sink
exactly the chunks delivered by the upstream stream, each decoded, in
the same order, with nothing injected, dropped, reordered or
coalesced; in particular an upstream stream emitting `"data: a\n"` and
`"data: b\n"` yields exactly those two chunks downstream, in order. -/
theorem relay_forwards_chunks_in_order (dec : String → String) (chunks : List String) :
    pump dec chunks [] = chunks.map dec ∧
    pump id ["data: a\n", "data: b\n"] [] = ["data: a\n", "data: b\n"] := by
  exact ⟨by simp [pump_eq_append], rfl⟩

/-- C8: the sanitizer clamps numeric parameters — a temperature of 5
becomes 2, a temperature of −1 becomes 0, and a `max_tokens` of 999999
becomes 16384. -/
theorem sanitize_clamps :
    (sanitize { baseBody with temperature := some 5 }).temperature = some 2 ∧
    (sanitize { baseBody with temperature := some (-1) }).temperature = some 0 ∧
    (sanitize { baseBody with max_tokens := some 999999 }).max_tokens = some 16384 := by
  decide

/-- C5: `isLimited` is a fixed-window counter — on a first call for a
key, or on a call after the stored reset time has passed, it stores
`count = 1` with reset `now + windowMs` and returns `false`; on any
other call it increments the stored count and returns `count > max`.
In particular with `max = 20`, `windowMs = 60000` the 21st call within
one window returns `true` and a call after the window elapses returns
`false`. -/
theorem rateLimiter_fixed_window (ip : String) (mx : Nat) (w now : Int) (m : RLState) :
    (rlGet m ip = none →
      (isLimited ip mx w now m).1 = false ∧
      rlGet (isLimited ip mx w now m).2 ip = some ⟨1, now + w⟩) ∧
    (∀ e, rlGet m ip = some e → e.reset < now →
      (isLimited ip mx w now m).1 = false ∧
      rlGet (isLimited ip mx w now m).2 ip = some ⟨1, now + w⟩) ∧
    (∀ e, rlGet m ip = some e → now ≤ e.reset →
      (isLimited ip mx w now m).1 = decide (mx < e.count + 1) ∧
      rlGet (isLimited ip mx w now m).2 ip = some ⟨e.count + 1, e.reset⟩) ∧
    (isLimited "k" 20 60000 0 (isLimitedIter "k" 20 60000 0 [] 20)).1 = true ∧
    (isLimited "k" 20 60000 60001 (isLimitedIter "k" 20 60000 0 [] 20)).1 = false := by
  refine ⟨?_, ?_, ?_, by decide, by decide⟩
  · intro h
    simp [isLimited, h, rlGet_rlSet]
  · intro e he hlt
    simp [isLimited, he, hlt, rlGet_rlSet]
  · intro e he hle
    simp [isLimited, he, Int.not_lt.mpr hle, rlGet_rlSet, Nat.lt_iff_add_one_le]

/-- Witness for C5 at a concrete input: a first call for a fresh key
returns not-limited and stores `count = 1`, `reset = now + windowMs`. -/
theorem rateLimiter_fixed_window_witness :
    (isLimited "k0" 20 60000 5 []).1 = false ∧
    rlGet (isLimited "k0" 20 60000 5 []).2 "k0" = some ⟨1, 60005⟩ :=
  (rateLimiter_fixed_window "k0" 20 60000 5 []).1 rfl

theorem sanitizePart_idem (p : RawPart) :
    sanitizePart (sanitizePart p) = sanitizePart p := by
  by_cases h : p.type = JsVal.str "image_url" <;> simp [sanitizePart, h]

theorem sanitizeMsg_idem (m : RawMsg) :
    sanitizeMsg (sanitizeMsg m) = sanitizeMsg m := by
  obtain ⟨role, content⟩ := m
  cases content <;>
    simp [sanitizeMsg, List.map_map, Function.comp_def, sanitizePart_idem]

theorem numOr_ne_zero (v : Option Rat) (d : Rat) (hd : d ≠ 0) : numOr v d ≠ 0 := by
  cases v with
  | none => simpa [numOr] using hd
  | some q =>
    by_cases hq : q = 0 <;> simp [numOr, hq, hd]

theorem numOr_temp_pos (t : Option Rat) (h : ∀ q, t = some q → 0 ≤ q) :
    0 < numOr t (7/10) := by
  cases t with
  | none => norm_num [numOr]
  | some q =>
    have hq0 : 0 ≤ q := h q rfl
    by_cases hq : q = 0
    · rw [numOr, if_pos hq]; norm_num
    · simpa [numOr, hq] using lt_of_le_of_ne hq0 (Ne.symm hq)

theorem clampTemp_idem (t : Option Rat) (h : 0 < numOr t (7/10)) :
    clampTemp (some (clampTemp t)) = clampTemp t := by
  have hct : clampTemp t = min (numOr t (7/10)) 2 := by
    rw [clampTemp, max_eq_left h.le]
  have hpos : 0 < clampTemp t := by
    rw [hct]; exact lt_min h (by norm_num)
  have hle : clampTemp t ≤ 2 := min_le_right _ _
  rw [clampTemp, numOr, if_neg hpos.ne', max_eq_left hpos.le, min_eq_left hle]

theorem clampMaxTokens_idem (mt : Option Rat) :
    clampMaxTokens (some (clampMaxTokens mt)) = clampMaxTokens mt := by
  have hne : numOr mt 4096 ≠ 0 := numOr_ne_zero mt 4096 (by norm_num)
  have hmne : clampMaxTokens mt ≠ 0 := by
    rw [clampMaxTokens]
    rcases min_cases (numOr mt 4096) (16384 : Rat) with ⟨hm, _⟩ | ⟨hm, _⟩ <;>
      rw [hm]
    · exact hne
    · norm_num
  have hle : clampMaxTokens mt ≤ 16384 := min_le_right _ _
  rw [clampMaxTokens, numOr, if_neg hmne, min_eq_left hle]

/-- The request body exhibiting the C4 counterexample: a validated
body whose `temperature` coerces to −1. -/
def c4Body : Body := { baseBody with temperature := some (-1) }

/-- Counterexample to C4 as stated: `c4Body` passes validation, yet
sanitizing twice differs from sanitizing once — the first pass clamps
the temperature to 0, which the second pass treats as absent
(`Number(0) || 0.7` is `0.7`). -/
theorem sanitize_not_idempotent_cex :
    validateBody (ReqBody.obj c4Body) = none ∧
    sanitize (sanitize c4Body) ≠ sanitize c4Body ∧
    (sanitize c4Body).temperature = some 0 ∧
    (sanitize (sanitize c4Body)).temperature = some (7/10) := by
  have h1 : clampTemp (some (-1)) = 0 := by
    rw [clampTemp, numOr, if_neg (by norm_num : (-1 : ℚ) ≠ 0),
      max_eq_right (by norm_num : (-1 : ℚ) ≤ 0),
      min_eq_left (by norm_num : (0 : ℚ) ≤ 2)]
  have h2 : clampTemp (some 0) = 7/10 := by
    rw [clampTemp, numOr, if_pos rfl,
      max_eq_left (by norm_num : (0 : ℚ) ≤ 7/10),
      min_eq_left (by norm_num : (7/10 : ℚ) ≤ 2)]
  have ht1 : (sanitize c4Body).temperature = some 0 := by
    show some (clampTemp c4Body.temperature) = some 0
    rw [show c4Body.temperature = some (-1) from rfl, h1]
  have ht2 : (sanitize (sanitize c4Body)).temperature = some (7/10) := by
    show some (clampTemp (sanitize c4Body).temperature) = some (7/10)
    rw [ht1, h2]
  refine ⟨by decide, ?_, ht1, ht2⟩
  intro h
  rw [h, ht1] at ht2
  exact absurd (Option.some.inj ht2) (by norm_num)

/-- C4, amended: the sanitizer is idempotent on every validated body
whose `temperature` field does not coerce to a negative number (for a
negative coercion the first pass clamps the temperature to 0 and the
second pass replaces that 0 with the default 0.7); the `model`,
`messages` and `max_tokens` fields are idempotent unconditionally. -/
theorem sanitize_idempotent_amended (b : Body)
    (hval : validateBody (ReqBody.obj b) = none)
    (htemp : ∀ q, b.temperature = some q → 0 ≤ q) :
    sanitize (sanitize b) = sanitize b := by
  have ht := clampTemp_idem b.temperature (numOr_temp_pos _ htemp)
  simp [sanitize, Option.map_map, Function.comp_def, List.map_map,
    sanitizeMsg_idem, clampMaxTokens_idem, ht]

/-- Witness for C4 (amended) at a concrete input: the base body, whose
`temperature` is absent. -/
theorem sanitize_idempotent_amended_witness :
    validateBody (ReqBody.obj baseBody) = none ∧
    sanitize (sanitize baseBody) = sanitize baseBody := by
  refine ⟨by decide, sanitize_idempotent_amended baseBody (by decide) ?_⟩
  intro q hq
  simp [baseBody] at hq

/-- The request body exhibiting the C6 counterexample: allow-listed
model, empty `messages` array. -/
def c6Body : Body := { baseBody with messages := some [] }

/-- Counterexample to C6 as stated: on an empty `messages` array the
Express server's validator (one of the validators the claim covers)
returns "Messages array is required", not "No messages". -/
theorem noMessages_cex :
    validateChatBody (ReqBody.obj c6Body) = some "Messages array is required" ∧
    validateChatBody (ReqBody.obj c6Body) ≠ some "No messages" := by
  decide

/-- C6, amended: for every request body that passes the model check
and whose `messages` field is an empty array or not an array at all,
the worker / dev-plugin validator returns "No messages" while the
Express validator returns "Messages array is required"; in both cases
the chat route responds 400 with that message and no upstream call is
made (the route outcome is a local response, not an upstream call). -/
theorem noMessages_amended (b : Body)
    (hm : b.model.truthy = true ∧ allowedModel b.model = true)
    (hmsg : b.messages = none ∨ b.messages = some []) :
    validateBody (ReqBody.obj b) = some "No messages" ∧
    validateChatBody (ReqBody.obj b) = some "Messages array is required" ∧
    chatRouteWorker (ReqBody.obj b) =
      RouteOutcome.respond 400 (errorEnvelope "No messages") ∧
    chatRouteNode (ReqBody.obj b) =
      RouteOutcome.respond 400 (errorEnvelope "Messages array is required") := by
  obtain ⟨h1, h2⟩ := hm
  have hv : validateBody (ReqBody.obj b) = some "No messages" := by
    rcases hmsg with h | h <;> simp [validateBody, h1, h2, h]
  have hvn : validateChatBody (ReqBody.obj b) = some "Messages array is required" := by
    rcases hmsg with h | h <;> simp [validateChatBody, h1, h2, h]
  exact ⟨hv, hvn, by simp [chatRouteWorker, hv], by simp [chatRouteNode, hvn]⟩

/-- Witness for C6 (amended) at the concrete empty-messages body. -/
theorem noMessages_amended_witness :
    validateBody (ReqBody.obj c6Body) = some "No messages" ∧
    chatRouteWorker (ReqBody.obj c6Body) =
      RouteOutcome.respond 400 "\x7b\"error\":\x7b\"message\":\"No messages\"\x7d\x7d" := by
  have h := noMessages_amended c6Body ⟨by decide, by decide⟩ (Or.inr rfl)
  exact ⟨h.1, h.2.2.1⟩

/-- The request body exhibiting the C7 counterexample: a model not on
the allow-list, with a well-formed user message. -/
def c7Body : Body := { baseBody with model := .str "invalid-model" }

/-- Counterexample to C7 as stated: for the out-of-list model the
Express server's validator (one of the validators the claim covers)
rejects with "Неизвестная модель: invalid-model", not "Unknown model",
and its chat route does not return the claimed JSON body. -/
theorem unknownModel_cex :
    validateChatBody (ReqBody.obj c7Body) = some "Неизвестная модель: invalid-model" ∧
    validateChatBody (ReqBody.obj c7Body) ≠ some "Unknown model" ∧
    chatRouteNode (ReqBody.obj c7Body) ≠
      RouteOutcome.respond 400 "\x7b\"error\":\x7b\"message\":\"Unknown model\"\x7d\x7d" := by
  decide

/-- C7, amended: for every request body whose `model` is absent, falsy
or not on the 6-item allow-list — regardless of the `messages` content
— the worker / dev-plugin validator rejects with "Unknown model" and
the worker chat route answers 400 with the envelope
`{"error":{"message":"Unknown model"}}`, while the Express validator
rejects with `"Неизвестная модель: " + model` and its route answers
400 with that message in the envelope. -/
theorem unknownModel_amended (b : Body)
    (hm : b.model.truthy = false ∨ allowedModel b.model = false) :
    validateBody (ReqBody.obj b) = some "Unknown model" ∧
    validateChatBody (ReqBody.obj b) =
      some ("Неизвестная модель: " ++ b.model.display) ∧
    chatRouteWorker (ReqBody.obj b) =
      RouteOutcome.respond 400 (errorEnvelope "Unknown model") ∧
    chatRouteNode (ReqBody.obj b) =
      RouteOutcome.respond 400 (errorEnvelope ("Неизвестная модель: " ++ b.model.display)) := by
  have hv : validateBody (ReqBody.obj b) = some "Unknown model" := by
    rcases hm with h | h <;> simp [validateBody, h]
  have hvn : validateChatBody (ReqBody.obj b) =
      some ("Неизвестная модель: " ++ b.model.display) := by
    rcases hm with h | h <;> simp [validateChatBody, h]
  exact ⟨hv, hvn, by simp [chatRouteWorker, hv], by simp [chatRouteNode, hvn]⟩

/-- Witness for C7 (amended) at the concrete body
`{model:"invalid-model", messages:[{role:"user",content:"hi"}]}`:
the worker route answers 400 with exactly the claimed JSON body. -/
theorem unknownModel_amended_witness :
    validateBody (ReqBody.obj c7Body) = some "Unknown model" ∧
    chatRouteWorker (ReqBody.obj c7Body) =
      RouteOutcome.respond 400 "\x7b\"error\":\x7b\"message\":\"Unknown model\"\x7d\x7d" := by
  have h := unknownModel_amended c7Body (Or.inr (by decide))
  exact ⟨h.1, h.2.2.1⟩

/-- The content part exhibiting the C9 counterexample: an `image_url`
part whose `url` is the number 1 — truthy but not a string. -/
def c9Part : RawPart := ⟨.str "image_url", .undef, some (.num 1)⟩

/-- A second C9 deviation: an `image_url` part whose `url` is the
empty string — a string, but falsy. -/
def c9PartEmpty : RawPart := ⟨.str "image_url", .undef, some (.str "")⟩

/-- Counterexample to C9 as stated: the validator accepts `c9Part`
although its `url` is not a string (so the part is outside the shape
the claim allows), and rejects `c9PartEmpty` although it is exactly
`{type:"image_url", image_url:{url: string}}`. -/
theorem contentPart_cex :
    checkPart c9Part = none ∧
    specPartShape c9Part = false ∧
    checkPart c9PartEmpty = some "Invalid content part" ∧
    specPartShape c9PartEmpty = true := by
  decide

/-- C9, amended: the validator accepts a content part iff it is
`{type:"text", text: string}` with `text.length ≤ 32000`, or
`{type:"image_url"}` with `image_url?.url` truthy (of any type — a
non-string truthy `url` is accepted, an empty-string `url` is not);
it returns "Invalid content part" exactly for parts that are neither
a text part carrying string text nor an `image_url` part with truthy
`url` (an over-long text part instead gets "Message too long"). -/
theorem checkPart_characterization (p : RawPart) :
    (checkPart p = none ↔
      ((p.type = JsVal.str "text" ∧ p.text.isString = true ∧
          p.text.asString.length ≤ MAX_MSG_LEN) ∨
        (p.type = JsVal.str "image_url" ∧ urlTruthy p = true))) ∧
    (checkPart p = some "Invalid content part" ↔
      (¬ (p.type = JsVal.str "text" ∧ p.text.isString = true) ∧
        ¬ (p.type = JsVal.str "image_url" ∧ urlTruthy p = true))) := by
  by_cases ht : p.type = JsVal.str "text"
  · by_cases hs : p.text.isString = true
    · by_cases hl : p.text.asString.length ≤ MAX_MSG_LEN
      · simp [checkPart, ht, hs, hl, Nat.not_lt.mpr hl]
      · simp [checkPart, ht, hs, hl, Nat.lt_of_not_le hl]
    · simp [checkPart, urlTruthy, ht, hs]
  · by_cases hi : p.type = JsVal.str "image_url"
    · by_cases hu : urlTruthy p = true
      · simp only [urlTruthy] at hu
        simp [checkPart, ht, hi, hu, urlTruthy]
      · simp only [urlTruthy] at hu
        simp [checkPart, ht, hi, hu, urlTruthy]
    · simp [checkPart, urlTruthy, ht, hi]

theorem fetchLoopNode_all429 (up : Nat → UResp)
    (h : ∀ i, (up i).ok = false ∧ (up i).status = 429) (mr : Nat) :
    ∀ left i, fetchLoopNode up mr i left = nodeSynth := by
  intro left
  induction left with
  | zero => intro i; rfl
  | succ l ih => intro i; simp [fetchLoopNode, (h i).1, (h i).2, ih]

theorem fetchLoopWorker_all429 (up : Nat → UResp)
    (h : ∀ i, (up i).ok = false ∧ (up i).status = 429) (mr : Nat) :
    ∀ l i, i + l = mr → fetchLoopWorker up mr i (l + 1) = up mr := by
  intro l
  induction l with
  | zero =>
    intro i hi
    have hi' : i = mr := by omega
    subst hi'
    simp [fetchLoopWorker, (h i).1, (h i).2]
  | succ l ih =>
    intro i hi
    have hlt : i < mr := by omega
    simp only [fetchLoopWorker, (h i).1, (h i).2, hlt, and_true, Bool.false_eq_true,
      if_false, if_true, if_pos]
    exact ih (i + 1) (by omega)

/-- The all-429 upstream used in the C3 counterexample: every attempt
yields a 429 whose body is the upstream's own. -/
def up429 : Nat → UResp := fun _ => ⟨false, 429, "upstream-rate-limit-body"⟩

/-- Counterexample to C3 as stated: when every attempt returns 429,
the worker's `groqFetch` (one of the implementations the claim covers,
with its default `maxRetries = 3`) returns the upstream's final 429
response verbatim — not a rate-limit envelope it constructed itself
(its synthesized-envelope line is unreachable). -/
theorem groqFetch_worker_cex :
    groqFetchWorker up429 3 = ⟨false, 429, "upstream-rate-limit-body"⟩ ∧
    groqFetchWorker up429 3 ≠ workerSynth ∧
    groqFetchWorker up429 3 ≠ nodeSynth := by
  decide

/-- C3, amended: when the upstream responds 429 on every attempt, the
dev-plugin / Express `groqFetch` exhausts `maxRetries` and returns the
synthesized rate-limit-exceeded 429 envelope, never an unhandled
exception; the worker's `groqFetch` instead stops after `maxRetries`
retries and returns the upstream's final 429 response unchanged (it
also never throws, but its synthesized envelope is unreachable). -/
theorem groqFetch_exhausted_amended (up : Nat → UResp) (mr : Nat)
    (h : ∀ i, (up i).ok = false ∧ (up i).status = 429) :
    groqFetchNode up mr = nodeSynth ∧
    groqFetchWorker up mr = up mr := by
  constructor
  · exact fetchLoopNode_all429 up h mr (mr + 1) 0
  · exact fetchLoopWorker_all429 up h mr mr 0 (by omega)

/-- Witness for C3 (amended) with a concrete all-429 upstream and
`maxRetries = 2`. -/
theorem groqFetch_exhausted_amended_witness :
    groqFetchNode (fun _ => ⟨false, 429, "b"⟩) 2 = nodeSynth ∧
    groqFetchWorker (fun _ => ⟨false, 429, "b"⟩) 2 = ⟨false, 429, "b"⟩ :=
  groqFetch_exhausted_amended (fun _ => ⟨false, 429, "b"⟩) 2 (fun _ => ⟨rfl, rfl⟩)

theorem relayRun_split (s s'' : RelayState) (t1 t2 : List RelayEv)
    (h : relayRun s (t1 ++ t2) = some s'') :
    ∃ s', relayRun s t1 = some s' ∧ relayRun s' t2 = some s'' := by
  induction t1 generalizing s with
  | nil => exact ⟨s, rfl, h⟩
  | cons e es ih =>
    rw [List.cons_append, relayRun] at h
    cases he : relayStep s e with
    | none => rw [he] at h; exact absurd h (by simp)
    | some s1 =>
      rw [he] at h
      obtain ⟨s', h1, h2⟩ := ih s1 h
      exact ⟨s', by rw [relayRun, he]; exact h1, h2⟩

theorem relayStep_preserves {s s' : RelayState} {e : RelayEv}
    (h : relayStep s e = some s')
    (hc : s.cancelled = true) (hf : s.closeFired = true) :
    e = RelayEv.readDone ∧ s'.cancelled = true ∧ s'.closeFired = true := by
  cases e with
  | pull => simp [relayStep, hc] at h
  | closeEv => simp [relayStep, hf] at h
  | readDone =>
    by_cases hp : s.pumpDone = true
    · simp [relayStep, hp] at h
    · simp only [relayStep] at h
      rw [if_neg hp, if_pos (Or.inl hc)] at h
      refine ⟨rfl, ?_, ?_⟩
      · rw [← Option.some.inj h]; exact hc
      · rw [← Option.some.inj h]; exact hf

theorem relayRun_after_cancel {s s' : RelayState} {tr : List RelayEv}
    (h : relayRun s tr = some s')
    (hc : s.cancelled = true) (hf : s.closeFired = true) :
    RelayEv.closeEv ∉ tr ∧ RelayEv.pull ∉ tr := by
  induction tr generalizing s with
  | nil => simp
  | cons e es ih =>
    rw [relayRun] at h
    cases he : relayStep s e with
    | none => rw [he] at h; exact absurd h (by simp)
    | some s1 =>
      rw [he] at h
      obtain ⟨hev, hc1, hf1⟩ := relayStep_preserves he hc hf
      have hrest := ih h hc1 hf1
      subst hev
      simp [hrest.1, hrest.2]

theorem relayStep_closeFired_mono {s s' : RelayState} {e : RelayEv}
    (h : relayStep s e = some s') (hf : s.closeFired = true) :
    s'.closeFired = true := by
  cases e with
  | pull =>
    simp only [relayStep] at h
    split at h
    · exact absurd h (by simp)
    · split at h
      · exact absurd h (by simp)
      · rw [← Option.some.inj h]; exact hf
  | closeEv => simp [relayStep, hf] at h
  | readDone =>
    simp only [relayStep] at h
    split at h
    · exact absurd h (by simp)
    · split at h
      · rw [← Option.some.inj h]; exact hf
      · exact absurd h (by simp)

theorem relayRun_closeFired_mono {s s' : RelayState} {tr : List RelayEv}
    (h : relayRun s tr = some s') (hf : s.closeFired = true) :
    s'.closeFired = true := by
  induction tr generalizing s with
  | nil => rw [relayRun] at h; rw [← Option.some.inj h]; exact hf
  | cons e es ih =>
    rw [relayRun] at h
    cases he : relayStep s e with
    | none => rw [he] at h; exact absurd h (by simp)
    | some s1 =>
      rw [he] at h
      exact ih h (relayStep_closeFired_mono he hf)

theorem relayRun_closeFired_of_mem {s s' : RelayState} {tr : List RelayEv}
    (h : relayRun s tr = some s') (hm : RelayEv.closeEv ∈ tr) :
    s'.closeFired = true := by
  induction tr generalizing s with
  | nil => simp at hm
  | cons e es ih =>
    rw [relayRun] at h
    cases he : relayStep s e with
    | none => rw [he] at h; exact absurd h (by simp)
    | some s1 =>
      rw [he] at h
      rcases List.mem_cons.mp hm with hev | hm'
      · subst hev
        have hs1 : s1.closeFired = true := by
          simp only [relayStep] at he
          split at he
          · exact absurd he (by simp)
          · rw [← Option.some.inj he]
        exact relayRun_closeFired_mono h hs1
      · exact ih h hm'

/-- C2: in every valid execution of the streaming relay in which the
downstream connection closes after at least one chunk has been
forwarded, the upstream cancellation (`reader.cancel()`, fired by the
downstream `close` handler) is issued exactly once, and no upstream
read is requested after it — the trace contains exactly one `closeEv`
and no `pull` after it. -/
theorem relay_cancel_once (chunks : List String) (pre post : List RelayEv)
    (s : RelayState)
    (hrun : relayRun (relayInit chunks) (pre ++ RelayEv.closeEv :: post) = some s)
    (hfwd : 1 ≤ pre.count RelayEv.pull) :
    (pre ++ RelayEv.closeEv :: post).count RelayEv.closeEv = 1 ∧
    RelayEv.pull ∉ post := by
  obtain ⟨s1, hpre, hrest⟩ := relayRun_split _ _ _ _ hrun
  rw [relayRun] at hrest
  cases hstep : relayStep s1 RelayEv.closeEv with
  | none => rw [hstep] at hrest; exact absurd hrest (by simp)
  | some s2 =>
    rw [hstep] at hrest
    have hs1 : s1.closeFired = false := by
      by_contra hcf
      have hct : s1.closeFired = true := by
        revert hcf; cases s1.closeFired <;> simp
      simp [relayStep, hct] at hstep
    have hs2 : s2.cancelled = true ∧ s2.closeFired = true := by
      simp only [relayStep] at hstep
      rw [if_neg (by rw [hs1]; simp)] at hstep
      rw [← Option.some.inj hstep]
      exact ⟨rfl, rfl⟩
    have hpost := relayRun_after_cancel hrest hs2.1 hs2.2
    have hprec : RelayEv.closeEv ∉ pre := by
      intro hmem
      rw [relayRun_closeFired_of_mem hpre hmem] at hs1
      exact absurd hs1 (by simp)
    refine ⟨?_, hpost.2⟩
    rw [List.count_append, List.count_cons,
      List.count_eq_zero.mpr hprec, List.count_eq_zero.mpr hpost.1]
    simp

/-- Witness for C2 on the concrete trace `pull, closeEv, readDone`
over the two-chunk upstream `["a", "b"]`. -/
theorem relay_cancel_once_witness :
    ([RelayEv.pull] : List RelayEv).count RelayEv.pull ≥ 1 ∧
    ([RelayEv.pull] ++ RelayEv.closeEv :: [RelayEv.readDone]).count RelayEv.closeEv = 1 ∧
    RelayEv.pull ∉ [RelayEv.readDone] := by
  have h := relay_cancel_once ["a", "b"] [RelayEv.pull] [RelayEv.readDone]
    ⟨["b"], ["a"], true, true, true⟩ (by decide) (by decide)
  exact ⟨by decide, h.1, h.2⟩

theorem rlCallSeq_limited (ip : String) (mx : Nat) (w : Int) (ts : List Int)
    (m : RLState) (e : RLEntry) (he : rlGet m ip = some e) (hc : mx < e.count)
    (hts : (ts.all fun t => decide (t ≤ e.reset)) = true) :
    ((rlCallSeq ip mx w ts m).1.all fun b => b) = true ∧
    ∃ c, mx < c ∧ rlGet (rlCallSeq ip mx w ts m).2 ip = some ⟨c, e.reset⟩ := by
  induction ts generalizing m e with
  | nil =>
    exact ⟨rfl, e.count, hc, by rw [rlCallSeq]; exact he⟩
  | cons t ts ih =>
    rw [List.all_cons, Bool.and_eq_true, decide_eq_true_eq] at hts
    have hnlt : ¬ e.reset < t := Int.not_lt.mpr hts.1
    have hcall : isLimited ip mx w t m =
        (decide (mx < e.count + 1), rlSet m ip ⟨e.count + 1, e.reset⟩) := by
      rw [isLimited, he]
      simp [hnlt]
    have ihr := ih (rlSet m ip ⟨e.count + 1, e.reset⟩) ⟨e.count + 1, e.reset⟩
      (rlGet_rlSet _ _ _) (Nat.lt_succ_of_lt hc) hts.2
    rw [rlCallSeq, hcall]
    refine ⟨?_, ihr.2⟩
    rw [List.all_cons, ihr.1, decide_eq_true (Nat.lt_succ_of_lt hc), Bool.and_self]

theorem isLimited_true_entry (ip : String) (mx : Nat) (w now : Int) (m : RLState)
    (h : (isLimited ip mx w now m).1 = true) :
    ∃ e, rlGet (isLimited ip mx w now m).2 ip = some e ∧ mx < e.count := by
  cases hg : rlGet m ip with
  | none =>
    have heq : isLimited ip mx w now m = (false, rlSet m ip ⟨1, now + w⟩) := by
      rw [isLimited, hg]
    rw [heq] at h
    simp at h
  | some e0 =>
    by_cases hlt : e0.reset < now
    · have heq : isLimited ip mx w now m = (false, rlSet m ip ⟨1, now + w⟩) := by
        rw [isLimited, hg]; simp [hlt]
      rw [heq] at h
      simp at h
    · have heq : isLimited ip mx w now m =
          (decide (mx < e0.count + 1), rlSet m ip ⟨e0.count + 1, e0.reset⟩) := by
        rw [isLimited, hg]; simp [hlt]
      rw [heq] at h ⊢
      exact ⟨⟨e0.count + 1, e0.reset⟩, rlGet_rlSet _ _ _, by simpa using h⟩

/-- C10: once `isLimited` has returned `true` for a key, every
subsequent call for that key made at or before the stored reset time
(a call at exactly the reset time still falls in the old window, since
the window is replaced only when `now` is strictly greater) also
returns `true`; a call strictly after the reset time starts a new
window and returns `false`. -/
theorem rateLimiter_limited_persists (ip : String) (mx : Nat) (w t0 : Int)
    (m : RLState) (e : RLEntry)
    (hfirst : (isLimited ip mx w t0 m).1 = true)
    (he : rlGet (isLimited ip mx w t0 m).2 ip = some e)
    (ts : List Int)
    (hts : (ts.all fun t => decide (t ≤ e.reset)) = true) :
    ((rlCallSeq ip mx w ts (isLimited ip mx w t0 m).2).1.all fun b => b) = true ∧
    ∀ t', e.reset < t' →
      (isLimited ip mx w t' (rlCallSeq ip mx w ts (isLimited ip mx w t0 m).2).2).1 = false := by
  obtain ⟨e', he', hc'⟩ := isLimited_true_entry ip mx w t0 m hfirst
  rw [he] at he'
  obtain rfl : e = e' := Option.some.inj he'
  obtain ⟨hall, c, hc, hfin⟩ := rlCallSeq_limited ip mx w ts _ e he hc' hts
  refine ⟨hall, ?_⟩
  intro t' ht'
  have heq : isLimited ip mx w t'
      (rlCallSeq ip mx w ts (isLimited ip mx w t0 m).2).2 =
      (false, rlSet (rlCallSeq ip mx w ts (isLimited ip mx w t0 m).2).2 ip ⟨1, t' + w⟩) := by
    rw [isLimited, hfin]
    simp [ht']
  rw [heq]

/-- Witness for C10: a key already over the limit (count 21 > max 20,
reset at 100) trips `isLimited` at time 50, stays limited at times 60
and 100 (the reset instant itself), and is no longer limited at
time 101. -/
theorem rateLimiter_limited_persists_witness :
    ((rlCallSeq "k" 20 60000 [60, 100]
        (isLimited "k" 20 60000 50 [("k", ⟨21, 100⟩)]).2).1.all fun b => b) = true ∧
    (isLimited "k" 20 60000 101
      (rlCallSeq "k" 20 60000 [60, 100]
        (isLimited "k" 20 60000 50 [("k", ⟨21, 100⟩)]).2).2).1 = false := by
  have h := rateLimiter_limited_persists "k" 20 60000 50 [("k", ⟨21, 100⟩)]
    ⟨22, 100⟩ (by decide) (by decide) [60, 100] (by decide)
  exact ⟨h.1, h.2 101 (by decide)⟩

end Lumiere
